import Mathlib

/-!
Verification development for the idempotency middleware in
`src/scripts/migrate.js` (second embedded source file: the Express
idempotency middleware).  The JavaScript value space, the fingerprinter
(`stableStringify` / `sha256`), the record store and the middleware
decision flow are embedded shallowly below, and the specification
claims are settled as theorems about these definitions.
-/

namespace Idem

/--
Model of a JavaScript value as delivered by the body parser or produced
by a handler.  Numbers are modelled as integers (the payloads relevant
here are integral).  The constructor `unser` models a value on which
`JSON.stringify` throws (for example an object graph with a circular
reference): it is unserializable.
-/
inductive Js where
  | null
  | undefined
  | bool (b : Bool)
  | num (n : Int)
  | str (s : String)
  | arr (elems : List Js)
  | obj (fields : List (String × Js))
  | unser

/--
Property lookup on an object field list: the value of the first field
named `k`, as JavaScript property access `fs[k]` yields.
-/
def lookupField (fs : List (String × Js)) (k : String) : Option Js :=
  match fs with
  | [] => none
  | (k1, v) :: rest => if k1 = k then some v else lookupField rest k

theorem sizeOf_lookupField {fs : List (String × Js)} {k : String} {v : Js}
    (h : lookupField fs k = some v) : sizeOf v < sizeOf fs := by
  induction fs with
  | nil => simp [lookupField] at h
  | cons p rest ih =>
    obtain ⟨k1, w⟩ := p
    simp only [lookupField] at h
    split at h
    · cases h
      simp only [List.cons.sizeOf_spec, Prod.mk.sizeOf_spec]
      omega
    · have := ih h
      simp only [List.cons.sizeOf_spec]
      omega

/-- Hexadecimal digit for the low four bits of a natural number. -/
def hexDigit (n : Nat) : String :=
  match n % 16 with
  | 0 => "0" | 1 => "1" | 2 => "2" | 3 => "3" | 4 => "4"
  | 5 => "5" | 6 => "6" | 7 => "7" | 8 => "8" | 9 => "9"
  | 10 => "a" | 11 => "b" | 12 => "c" | 13 => "d" | 14 => "e"
  | _ => "f"

/-- JSON escape of a single character, as `JSON.stringify` quotes strings. -/
def escChar (c : Char) : String :=
  if c = '"' then "\\\""
  else if c = '\\' then "\\\\"
  else if c = '\n' then "\\n"
  else if c = '\t' then "\\t"
  else if c = '\r' then "\\r"
  else if c = '\x08' then "\\b"
  else if c = '\x0c' then "\\f"
  else if c.toNat < 32 then "\\u00" ++ hexDigit (c.toNat / 16) ++ hexDigit c.toNat
  else String.singleton c

/-- JSON quotation of a string, as `JSON.stringify` produces it. -/
def quoteJSON (s : String) : String :=
  "\"" ++ String.join (s.toList.map escChar) ++ "\""

/--
Outcome of `JSON.stringify` on one value: a serialized string, the
JavaScript value `undefined` (produced for `undefined` input), or a
thrown `TypeError` (circular/unserializable input).
-/
inductive SOut where
  | ok (s : String)
  | undefined
  | thrown
deriving Repr, DecidableEq

mutual

/--
Embedding of `JSON.stringify(value, replacer)` where `replacer` is
either absent (`none`) or an array of property names (`some K`).  With
an array replacer, every object at every depth serializes exactly the
properties named in `K`, in the order of `K`; arrays always serialize
all their elements.  `undefined`-valued properties are skipped,
`undefined` array elements serialize as `null`, and an unserializable
value anywhere makes the whole call throw.
-/
def serialize (repl : Option (List String)) : Js → SOut
  | .null => .ok "null"
  | .undefined => .undefined
  | .bool b => .ok (if b then "true" else "false")
  | .num n => .ok (toString n)
  | .str s => .ok (quoteJSON s)
  | .unser => .thrown
  | .arr xs =>
    match serializeElems repl xs with
    | .error _ => .thrown
    | .ok parts => .ok ("[" ++ String.intercalate "," parts ++ "]")
  | .obj fs =>
    let ks := match repl with
      | some K => K
      | none => fs.map Prod.fst
    match serializeFields repl fs ks with
    | .error _ => .thrown
    | .ok parts => .ok ("\x7b" ++ String.intercalate "," parts ++ "\x7d")
termination_by v => (sizeOf v, 0)
decreasing_by
  all_goals simp_wf
  all_goals first
  | (apply Prod.Lex.left; omega)
  | (apply Prod.Lex.left; have hs := sizeOf_lookupField h; omega)
  | (apply Prod.Lex.right; omega)

/-- Serialization of the elements of an array body, in order. -/
def serializeElems (repl : Option (List String)) : List Js → Except Unit (List String)
  | [] => .ok []
  | x :: rest =>
    match serialize repl x with
    | .thrown => .error ()
    | .undefined =>
      match serializeElems repl rest with
      | .error e => .error e
      | .ok parts => .ok ("null" :: parts)
    | .ok s =>
      match serializeElems repl rest with
      | .error e => .error e
      | .ok parts => .ok (s :: parts)
termination_by xs => (sizeOf xs, 0)
decreasing_by
  all_goals simp_wf
  all_goals first
  | (apply Prod.Lex.left; omega)
  | (apply Prod.Lex.left; have hs := sizeOf_lookupField h; omega)
  | (apply Prod.Lex.right; omega)

/--
Serialization of the properties of an object `fs` selected and ordered
by the key list `ks`: keys missing from the object or holding
`undefined` are skipped.
-/
def serializeFields (repl : Option (List String)) (fs : List (String × Js)) :
    List String → Except Unit (List String)
  | [] => .ok []
  | k :: ks =>
    match h : lookupField fs k with
    | none => serializeFields repl fs ks
    | some v =>
      match serialize repl v with
      | .thrown => .error ()
      | .undefined => serializeFields repl fs ks
      | .ok s =>
        match serializeFields repl fs ks with
        | .error e => .error e
        | .ok parts => .ok ((quoteJSON k ++ ":" ++ s) :: parts)
termination_by ks => (sizeOf fs, sizeOf ks)
decreasing_by
  all_goals simp_wf
  all_goals first
  | (apply Prod.Lex.left; omega)
  | (apply Prod.Lex.left; have hs := sizeOf_lookupField h; omega)
  | (apply Prod.Lex.right; omega)

end

/--
Embedding of `Object.keys`: own enumerable property names of a value.
For an object these are its keys in insertion order; for an array they
are the index strings; primitives have none.
-/
def objectKeys : Js → List String
  | .obj fs => fs.map Prod.fst
  | .arr xs => (List.range xs.length).map (fun i => toString i)
  | _ => []

/--
Embedding of `Array.prototype.sort()` on a key array: JavaScript sorts
by string comparison (UTF-16 code-unit order), modelled with the
lexicographic order on `String`.
-/
def sortKeys (ks : List String) : List String :=
  ks.insertionSort (· ≤ ·)

/--
Embedding of `stableStringify` (src/scripts/migrate.js:56-61):
`null`/`undefined` become the empty string, strings pass through
unchanged, and any other value is serialized by
`JSON.stringify(obj, Object.keys(obj).sort())`.  The result is `none`
when `JSON.stringify` throws (unserializable value), in which case the
original function would throw rather than return.
-/
def stableStringify (b : Js) : Option String :=
  match b with
  | .null => some ""
  | .undefined => some ""
  | .str s => some s
  | v =>
    match serialize (some (sortKeys (objectKeys v))) v with
    | .ok s => some s
    | .undefined => some "undefined"
    | .thrown => none

/--
Model of the SHA-256 digest (src/scripts/migrate.js:63-65).  The code
only ever compares digests for equality, so the digest is modelled as
an injective encoding of the message; real SHA-256 collisions are
outside the embedding (see C1).
-/
def sha256 (s : String) : String := s

/--
The request fingerprint (src/scripts/migrate.js:86-88):
the digest of `method:route:stableStringify(body)` or `none` when
`stableStringify` throws.
-/
def requestHash (method route : String) (body : Js) : Option String :=
  (stableStringify body).map (fun s => sha256 (method ++ ":" ++ route ++ ":" ++ s))

/-- Leading JSON whitespace removal. -/
def skipWs : List Char → List Char
  | c :: r => if c = ' ' ∨ c = '\n' ∨ c = '\t' ∨ c = '\r' then skipWs r else c :: r
  | [] => []

/-- Digit run of a JSON number: the digits and the rest of the input. -/
def takeDigits : List Char → (List Char × List Char)
  | c :: r =>
    if c.isDigit then
      let (ds, rest) := takeDigits r
      (c :: ds, rest)
    else ([], c :: r)
  | [] => ([], [])

/-- Numeric value of a digit list. -/
def digitsToNat : List Char → Nat → Nat
  | [], acc => acc
  | c :: r, acc => digitsToNat r (acc * 10 + (c.toNat - 48))

/-- Value of a hexadecimal digit, if any. -/
def hexVal (c : Char) : Option Nat :=
  if '0' ≤ c ∧ c ≤ '9' then some (c.toNat - 48)
  else if 'a' ≤ c ∧ c ≤ 'f' then some (c.toNat - 87)
  else if 'A' ≤ c ∧ c ≤ 'F' then some (c.toNat - 55)
  else none

/-- Body of a JSON string literal after the opening quote. -/
def parseStr : List Char → Option (String × List Char)
  | [] => none
  | '"' :: r => some ("", r)
  | '\\' :: e :: r =>
    if e = 'u' then
      match r with
      | a :: b :: c :: d :: r1 =>
        match hexVal a, hexVal b, hexVal c, hexVal d with
        | some x, some y, some z, some w =>
          (parseStr r1).map (fun p =>
            (String.singleton (Char.ofNat (((x * 16 + y) * 16 + z) * 16 + w)) ++ p.1, p.2))
        | _, _, _, _ => none
      | _ => none
    else
      match (if e = '"' then some '"' else if e = '\\' then some '\\'
             else if e = '/' then some '/' else if e = 'n' then some '\n'
             else if e = 't' then some '\t' else if e = 'r' then some '\r'
             else if e = 'b' then some '\x08' else if e = 'f' then some '\x0c'
             else none) with
      | none => none
      | some c => (parseStr r).map (fun p => (String.singleton c ++ p.1, p.2))
  | c :: r =>
    if c.toNat < 32 then none
    else (parseStr r).map (fun p => (String.singleton c ++ p.1, p.2))

mutual

/--
Modelled from the spec: recursive-descent JSON value parser used for
the reconstitution of a stored `response_body` (the database layer,
`src/config/database`, is not part of `src/`; the spec states stored
bodies are serialized and that reconstitution of a stored body can
fail, falling back to a default success body).  Numbers are modelled
as integers: fractional or exponent forms are not representable in
`Js` and fail to parse.  `fuel` bounds nesting depth.
-/
def parseVal : Nat → List Char → Option (Js × List Char)
  | 0, _ => none
  | fuel + 1, cs =>
    match skipWs cs with
    | 'n' :: 'u' :: 'l' :: 'l' :: r => some (.null, r)
    | 't' :: 'r' :: 'u' :: 'e' :: r => some (.bool true, r)
    | 'f' :: 'a' :: 'l' :: 's' :: 'e' :: r => some (.bool false, r)
    | '"' :: r => (parseStr r).map (fun p => (.str p.1, p.2))
    | '[' :: r =>
      (match skipWs r with
       | ']' :: r1 => some (.arr [], r1)
       | r1 =>
         (parseElems fuel r1).map (fun p => (.arr p.1, p.2)))
    | '\x7b' :: r =>
      (match skipWs r with
       | '\x7d' :: r1 => some (.obj [], r1)
       | r1 =>
         (parseMembers fuel r1).map (fun p => (.obj p.1, p.2)))
    | '-' :: c :: r =>
      if c.isDigit then
        let (ds, rest) := takeDigits (c :: r)
        match rest with
        | '.' :: _ => none
        | 'e' :: _ => none
        | 'E' :: _ => none
        | _ => some (.num (-(digitsToNat ds 0 : Int)), rest)
      else none
    | c :: r =>
      if c.isDigit then
        let (ds, rest) := takeDigits (c :: r)
        match rest with
        | '.' :: _ => none
        | 'e' :: _ => none
        | 'E' :: _ => none
        | _ => some (.num (digitsToNat ds 0 : Int), rest)
      else none
    | [] => none

/-- Comma-separated array elements up to the closing bracket. -/
def parseElems : Nat → List Char → Option (List Js × List Char)
  | 0, _ => none
  | fuel + 1, cs =>
    match parseVal fuel cs with
    | none => none
    | some (v, r) =>
      match skipWs r with
      | ',' :: r1 => (parseElems fuel r1).map (fun p => (v :: p.1, p.2))
      | ']' :: r1 => some ([v], r1)
      | _ => none

/-- Comma-separated object members up to the closing brace. -/
def parseMembers : Nat → List Char → Option (List (String × Js) × List Char)
  | 0, _ => none
  | fuel + 1, cs =>
    match skipWs cs with
    | '"' :: r =>
      match parseStr r with
      | none => none
      | some (k, r1) =>
        match skipWs r1 with
        | ':' :: r2 =>
          match parseVal fuel r2 with
          | none => none
          | some (v, r3) =>
            match skipWs r3 with
            | ',' :: r4 => (parseMembers fuel r4).map (fun p => ((k, v) :: p.1, p.2))
            | '\x7d' :: r4 => some ([(k, v)], r4)
            | _ => none
        | _ => none
    | _ => none

end

/-- Modelled from the spec: `JSON.parse` of a whole string, or `none`. -/
def parseJson (s : String) : Option Js :=
  match parseVal (2 * s.toList.length + 4) s.toList with
  | some (v, r) => if skipWs r = [] then some v else none
  | none => none

/--
An incoming request as the middleware sees it.  `agentId` is `some a`
when `req.agent` exists and has the id `a` (the code also treats a
falsy id, modelled as the empty string, as absent); `idemHeader` is
the raw value of the `Idempotency-Key` header when present.
-/
structure Request where
  method : String
  baseUrl : String
  path : String
  agentId : Option String
  idemHeader : Option String
  body : Js

/--
A row of the `idempotency_keys` table.  `response_body` is the
serialized text as inserted by the commit path (`none` models SQL
NULL, inserted when the captured body was `undefined`).
-/
structure StoredRecord where
  agent_id : String
  idem_key : String
  method : String
  route : String
  request_hash : String
  status_code : Nat
  response_body : Option String
deriving Repr, DecidableEq

/-- Tuple equality on the uniqueness key (agent_id, idem_key, method, route). -/
def sameTuple (a b : StoredRecord) : Bool :=
  a.agent_id = b.agent_id ∧ a.idem_key = b.idem_key ∧
    a.method = b.method ∧ a.route = b.route

/-- Whether a record belongs to the given dedup tuple. -/
def tupleIs (r : StoredRecord) (agent key method route : String) : Bool :=
  r.agent_id = agent ∧ r.idem_key = key ∧ r.method = method ∧ r.route = route

/--
The `queryOne` lookup (src/scripts/migrate.js:90-95): the record for
the (agent_id, idem_key, method, route) tuple, if any.
-/
def lookupRecord (db : List StoredRecord) (agent key method route : String) :
    Option StoredRecord :=
  db.find? (fun r => tupleIs r agent key method route)

/--
The `INSERT ... ON CONFLICT (agent_id, idem_key, method, route) DO
NOTHING` commit (src/scripts/migrate.js:138-153): a no-op when a
record with the same tuple already exists.
-/
def insertIfAbsent (db : List StoredRecord) (r : StoredRecord) : List StoredRecord :=
  if db.any (fun x => sameTuple x r) then db else db ++ [r]

/-- JavaScript truthiness of a value. -/
def Js.truthy : Js → Bool
  | .null => false
  | .undefined => false
  | .bool b => b
  | .num n => n != 0
  | .str s => s ≠ ""
  | .arr _ => true
  | .obj _ => true
  | .unser => true

/--
Modelled from the spec: the reconstituted JavaScript value of a stored
`response_body` as `queryOne` (in `src/config/database`, outside
`src/`) returns it — the stored serialized text parsed back as JSON,
with a failed reconstitution (and SQL NULL) yielding no value.
-/
def reconstitute (rb : Option String) : Option Js :=
  rb.bind parseJson

/-- The default replay body, `{ success: true }` (src/scripts/migrate.js:108). -/
def defaultReplayBody : Js := .obj [("success", .bool true)]

/-- Replay status: `existing.status_code || 200` (src/scripts/migrate.js:107). -/
def replayStatus (r : StoredRecord) : Nat :=
  if r.status_code = 0 then 200 else r.status_code

/-- Replay body: `existing.response_body || { success: true }` (line 108). -/
def replayBody (r : StoredRecord) : Js :=
  match reconstitute r.response_body with
  | some v => if v.truthy then v else defaultReplayBody
  | none => defaultReplayBody

/-- The 409 conflict body (src/scripts/migrate.js:100-103). -/
def conflictBody : Js :=
  .obj [("success", .bool false),
        ("error", .str "Idempotency-Key reuse with different request payload")]

/-- Embedding of `String.prototype.toUpperCase` (ASCII-relevant part). -/
def jsToUpper (s : String) : String :=
  String.mk (s.toList.map Char.toUpper)

/-- JavaScript whitespace as trimmed by `String.prototype.trim`. -/
def isJsSpace (c : Char) : Bool :=
  c = ' ' ∨ c = '\t' ∨ c = '\n' ∨ c = '\r' ∨ c = '\x0b' ∨ c = '\x0c'

/-- Embedding of `String.prototype.trim`: strip surrounding whitespace. -/
def jsTrim (s : String) : String :=
  String.mk (((s.toList.dropWhile isJsSpace).reverse.dropWhile isJsSpace).reverse)

/--
Entry decision of `idempotencyMiddleware` (src/scripts/migrate.js:74-110),
covering everything up to and including the branch on the looked-up
record.  `passthrough` is a plain `next()` with no interception,
`errFwd` is `next(err)` from the surrounding catch, and `executing`
is `next()` with the response interceptor attached and a pending
commit keyed by the carried tuple and fingerprint.
-/
inductive Decision where
  | passthrough
  | errFwd
  | conflict
  | replay (r : StoredRecord)
  | executing (agent key route hash : String)
deriving Repr, DecidableEq

/--
Embedding of the middleware entry path.  `optsMethods` is the
`methods` option of `idempotency(opts)` (`none` for the default
`['POST']`); `lookupErr` models the `queryOne` promise rejecting.
-/
def entryDecision (optsMethods : Option (List String)) (req : Request)
    (db : List StoredRecord) (lookupErr : Bool) : Decision :=
  let methods := (optsMethods.getD ["POST"]).map jsToUpper
  if ¬ methods.contains (jsToUpper req.method) then .passthrough
  else
    match req.agentId with
    | none => .passthrough
    | some agent =>
      if agent = "" then .passthrough
      else
        let key := jsTrim (req.idemHeader.getD "")
        if key = "" then .passthrough
        else if 200 < key.length then .passthrough
        else
          let route := req.baseUrl ++ req.path
          match requestHash req.method route req.body with
          | none => .errFwd
          | some h =>
            if lookupErr then .errFwd
            else
              match lookupRecord db agent key req.method route with
              | some existing =>
                if existing.request_hash ≠ "" ∧ existing.request_hash ≠ h then
                  .conflict
                else
                  .replay existing
              | none => .executing agent key route h

/--
What the handler did when it ran: its final status code and the last
body passed to `res.json`/`res.send`, if any (both capture the body
into `res.locals.__idemBody`; `none` models a handler that ended the
response without calling either).
-/
structure HandlerOutcome where
  status : Nat
  emitted : Option Js

/--
The `typeof responseBody === 'string' ? responseBody :
JSON.stringify(responseBody)` step of the finish listener
(src/scripts/migrate.js:133-136).
-/
def storedBodyText (emitted : Option Js) : SOut :=
  match emitted with
  | some (.str s) => .ok s
  | some v => serialize none v
  | none => .undefined

/--
The `res.on('finish')` commit (src/scripts/migrate.js:126-157): only
2xx outcomes are inserted, a throwing `JSON.stringify` is swallowed by
the listener try/catch, and a store failure during the insert
(`commitErr`) is likewise swallowed.
-/
def commitOnFinish (db : List StoredRecord) (agent key method route hash : String)
    (status : Nat) (emitted : Option Js) (commitErr : Bool) : List StoredRecord :=
  if status < 200 ∨ 300 ≤ status then db
  else
    match storedBodyText emitted with
    | .thrown => db
    | .undefined =>
      if commitErr then db
      else insertIfAbsent db
        ⟨agent, key, method, route, hash, status, none⟩
    | .ok s =>
      if commitErr then db
      else insertIfAbsent db
        ⟨agent, key, method, route, hash, status, some s⟩

/-- A response as transmitted to the caller by this request cycle. -/
structure ClientResponse where
  status : Nat
  body : Js
  idempotentReplay : Bool

/--
Observable outcome of one request cycle through the middleware:
whether the downstream handler ran (`next()` reached it), the response
the caller sees from this middleware or the handler (`none` when the
error was forwarded to the error chain instead), whether `next(err)`
was called, and the store contents afterwards.
-/
structure RunResult where
  handlerRan : Bool
  response : Option ClientResponse
  errForwarded : Bool
  db2 : List StoredRecord

/-- The body the caller sees from a handler that ran. -/
def handlerBody (h : HandlerOutcome) : Js := h.emitted.getD .undefined

/--
One full request cycle of `idempotencyMiddleware`: the entry decision,
then — only on the executing path — the handler with the response
interceptor attached and the finish-listener commit.
-/
def runRequest (optsMethods : Option (List String)) (req : Request)
    (db : List StoredRecord) (lookupErr commitErr : Bool)
    (handler : HandlerOutcome) : RunResult :=
  match entryDecision optsMethods req db lookupErr with
  | .passthrough =>
    ⟨true, some ⟨handler.status, handlerBody handler, false⟩, false, db⟩
  | .errFwd => ⟨false, none, true, db⟩
  | .conflict => ⟨false, some ⟨409, conflictBody, false⟩, false, db⟩
  | .replay r => ⟨false, some ⟨replayStatus r, replayBody r, true⟩, false, db⟩
  | .executing agent key route hash =>
    ⟨true, some ⟨handler.status, handlerBody handler, false⟩, false,
      commitOnFinish db agent key req.method route hash handler.status
        handler.emitted commitErr⟩

/-- The four bypass checks at the top of the middleware (lines 76-83). -/
def bypassed (optsMethods : Option (List String)) (req : Request) : Prop :=
  ((optsMethods.getD ["POST"]).map jsToUpper).contains (jsToUpper req.method) = false
  ∨ req.agentId = none
  ∨ req.agentId = some ""
  ∨ jsTrim (req.idemHeader.getD "") = ""
  ∨ 200 < (jsTrim (req.idemHeader.getD "")).length

theorem entry_passthrough (optsMethods : Option (List String)) (req : Request)
    (db : List StoredRecord) (lookupErr : Bool) (hb : bypassed optsMethods req) :
    entryDecision optsMethods req db lookupErr = .passthrough := by
  simp only [entryDecision]
  rcases hb with hm | ha | ha | hk | hk <;>
  · repeat' split
    all_goals first
    | rfl
    | (exfalso; simp_all)
    | (exfalso; omega)

theorem entry_participating (optsMethods : Option (List String)) (req : Request)
    (db : List StoredRecord) (lookupErr : Bool) (agent : String)
    (hm : ((optsMethods.getD ["POST"]).map jsToUpper).contains (jsToUpper req.method) = true)
    (ha : req.agentId = some agent) (ha2 : agent ≠ "")
    (hk : jsTrim (req.idemHeader.getD "") ≠ "")
    (hk2 : (jsTrim (req.idemHeader.getD "")).length ≤ 200) :
    entryDecision optsMethods req db lookupErr =
      match requestHash req.method (req.baseUrl ++ req.path) req.body with
      | none => .errFwd
      | some h =>
        if lookupErr then .errFwd
        else
          match lookupRecord db agent (jsTrim (req.idemHeader.getD ""))
              req.method (req.baseUrl ++ req.path) with
          | some existing =>
            if existing.request_hash ≠ "" ∧ existing.request_hash ≠ h then .conflict
            else .replay existing
          | none =>
            .executing agent (jsTrim (req.idemHeader.getD ""))
              (req.baseUrl ++ req.path) h := by
  simp only [entryDecision, ha]
  rw [if_neg (fun hc => hc hm), if_neg ha2, if_neg hk,
    if_neg (by omega : ¬ (200 < (jsTrim (req.idemHeader.getD "")).length))]

/--
C1: the claim states that two request bodies that are not semantically
identical never produce the same fingerprint, so a different payload is
never replayed.  The code violates this: `JSON.stringify(obj,
Object.keys(obj).sort())` uses the top-level key list as an array
replacer, which filters every nesting level, so the nested objects of
`{"a":{"b":1}}` and `{"a":{"c":2}}` are both serialized as
`{"a":{}}`; the two different payloads share one fingerprint, and the
second request is served as a replay of the first instead of being
detected as key reuse with a different payload (contradicting the
code's own comment on line 98).
-/
theorem c1_nested_payload_collision :
    let b1 : Js := .obj [("a", .obj [("b", .num 1)])]
    let b2 : Js := .obj [("a", .obj [("c", .num 2)])]
    let req1 : Request := ⟨"POST", "", "/orders", some "a1", some "abc", b1⟩
    let req2 : Request := ⟨"POST", "", "/orders", some "a1", some "abc", b2⟩
    let out1 := runRequest none req1 [] false false ⟨201, some (.obj [("ok", .bool true)])⟩
    let out2 := runRequest none req2 out1.db2 false false ⟨500, none⟩
    b1 ≠ b2
    ∧ stableStringify b1 = stableStringify b2
    ∧ requestHash "POST" "/orders" b1 = requestHash "POST" "/orders" b2
    ∧ out2.handlerRan = false
    ∧ out2.response = some ⟨201, .obj [("ok", .bool true)], true⟩ := by
  refine ⟨?_, ?_, ?_, ?_, ?_⟩
  · intro h
    simp only [Js.obj.injEq, List.cons.injEq, Prod.mk.injEq, and_true, true_and] at h
    exact absurd h.1 (by decide)
  all_goals
    simp +decide [runRequest, entryDecision, lookupRecord, tupleIs, insertIfAbsent, sameTuple,
      commitOnFinish, storedBodyText, handlerBody, replayStatus, replayBody, reconstitute,
      defaultReplayBody, conflictBody, Js.truthy, requestHash, stableStringify, sortKeys,
      objectKeys, serialize, serializeFields, serializeElems, lookupField, quoteJSON, escChar,
      hexDigit, sha256, parseJson, parseVal, parseMembers, parseElems, parseStr, skipWs,
      takeDigits, digitsToNat, hexVal, List.insertionSort, List.orderedInsert, jsToUpper,
      jsTrim, isJsSpace]

/--
C3: the claim states that a request whose tuple has a stored record
with a matching `request_hash` is answered with the stored status code
and stored body verbatim.  The code violates the verbatim part, which
the specification itself flags as a defect (section 9): a falsy
reconstituted `response_body` is replaced by the default
`{ success: true }`.  Here the first request answers `200` with JSON
body `0`, which is stored; the retry is replayed with body
`{ success: true }` instead of the stored `0`.  The replay header and
the handler-suppression behave as claimed.
-/
theorem c3_replay_not_verbatim :
    let req : Request := ⟨"POST", "", "/pay", some "a1", some "k1", .null⟩
    let out1 := runRequest none req [] false false ⟨200, some (.num 0)⟩
    let out2 := runRequest none req out1.db2 false false ⟨500, none⟩
    out1.db2 = [⟨"a1", "k1", "POST", "/pay", "POST:/pay:", 200, some "0"⟩]
    ∧ out2.handlerRan = false
    ∧ out2.response = some ⟨200, defaultReplayBody, true⟩
    ∧ defaultReplayBody ≠ .num 0 := by
  refine ⟨?_, ?_, ?_, by simp [defaultReplayBody]⟩
  all_goals
    simp +decide [runRequest, entryDecision, lookupRecord, tupleIs, insertIfAbsent, sameTuple,
      commitOnFinish, storedBodyText, handlerBody, replayStatus, replayBody, reconstitute,
      defaultReplayBody, conflictBody, Js.truthy, requestHash, stableStringify, sortKeys,
      objectKeys, serialize, serializeFields, serializeElems, lookupField, quoteJSON, escChar,
      hexDigit, sha256, parseJson, parseVal, parseMembers, parseElems, parseStr, skipWs,
      takeDigits, digitsToNat, hexVal, List.insertionSort, List.orderedInsert, jsToUpper,
      jsTrim, isJsSpace]

/--
C2 counterexample: the claim states that a store error during lookup
lets the request proceed un-deduplicated, executing the handler exactly
as if no idempotency key had been supplied.  The code instead reaches
the surrounding `catch` and calls `next(err)`: with a failing lookup
the handler does not run at all, while the same request without a key
does run the handler — so the claim is false on the code.
-/
theorem c2_lookup_error_counterexample :
    let req : Request := ⟨"POST", "", "/orders", some "a1", some "abc", .null⟩
    let reqNoKey : Request := ⟨"POST", "", "/orders", some "a1", none, .null⟩
    let out := runRequest none req [] true false ⟨200, some defaultReplayBody⟩
    let outNoKey := runRequest none reqNoKey [] true false ⟨200, some defaultReplayBody⟩
    out.handlerRan = false ∧ out.errForwarded = true ∧ out.response = none
    ∧ outNoKey.handlerRan = true ∧ outNoKey.errForwarded = false := by
  simp +decide [runRequest, entryDecision, lookupRecord, tupleIs, handlerBody,
    requestHash, stableStringify, sha256, jsToUpper, jsTrim, isJsSpace]

/--
C2 (amended): every store error during the lookup phase makes the
middleware forward the error to the error-handling chain via
`next(err)`: it sends no replay, conflict or error response of its own
and writes no record, but the handler is not executed as it would have
been had no key been supplied.
-/
theorem c2_lookup_error_forwards (optsMethods : Option (List String)) (req : Request)
    (db : List StoredRecord) (commitErr : Bool) (handler : HandlerOutcome) (agent : String)
    (hm : ((optsMethods.getD ["POST"]).map jsToUpper).contains (jsToUpper req.method) = true)
    (ha : req.agentId = some agent) (ha2 : agent ≠ "")
    (hk : jsTrim (req.idemHeader.getD "") ≠ "")
    (hk2 : (jsTrim (req.idemHeader.getD "")).length ≤ 200) :
    runRequest optsMethods req db true commitErr handler = ⟨false, none, true, db⟩ := by
  have hd := entry_participating optsMethods req db true agent hm ha ha2 hk hk2
  match hq : requestHash req.method (req.baseUrl ++ req.path) req.body with
  | none =>
    rw [hq] at hd
    simp [runRequest, hd]
  | some h =>
    rw [hq] at hd
    simp only [if_pos rfl] at hd
    simp [runRequest, hd]

/-- C2 witness: the amended theorem applied at a concrete request. -/
theorem c2_lookup_error_forwards_witness :
    runRequest none ⟨"POST", "", "/orders", some "a1", some "abc", .null⟩ [] true false
      ⟨200, none⟩ = ⟨false, none, true, []⟩ :=
  c2_lookup_error_forwards none ⟨"POST", "", "/orders", some "a1", some "abc", .null⟩ []
    false ⟨200, none⟩ "a1" (by decide) rfl (by decide) (by decide) (by decide)

/--
C9 counterexample: the claim states the fingerprinter returns some
stable hash for every body, including unserializable ones, and that no
fingerprinting failure can prevent the request from completing.  On an
unserializable body `JSON.stringify` throws, `stableStringify`
propagates the throw (no hash is produced), and the middleware's catch
forwards the error via `next(err)`: the handler never runs.
-/
theorem c9_unserializable_counterexample :
    stableStringify .unser = none
    ∧ requestHash "POST" "/orders" .unser = none
    ∧ runRequest none ⟨"POST", "", "/orders", some "a1", some "abc", .unser⟩ [] false false
        ⟨200, none⟩ = ⟨false, none, true, []⟩ := by
  refine ⟨by simp [stableStringify, sortKeys, objectKeys, serialize], ?_, ?_⟩
  · simp [requestHash, stableStringify, sortKeys, objectKeys, serialize]
  · simp +decide [runRequest, entryDecision, lookupRecord, tupleIs, handlerBody,
      requestHash, stableStringify, sortKeys, objectKeys, serialize, serializeFields,
      lookupField, sha256, jsToUpper, jsTrim, isJsSpace, List.insertionSort]

/--
C4: a stored record for the request's tuple whose (non-empty)
`request_hash` differs from the incoming fingerprint makes the
middleware answer HTTP 409 with body
`{ success: false, error: "Idempotency-Key reuse with different request
payload" }`; the handler is never invoked and the store is unchanged.
(The code treats a record with an empty/falsy stored `request_hash` as
a match; the core itself only ever persists non-empty digests, so the
hypothesis `hne` reflects every record this middleware writes.)
-/
theorem c4_conflict_409 (optsMethods : Option (List String)) (req : Request)
    (db : List StoredRecord) (commitErr : Bool) (handler : HandlerOutcome)
    (agent hash : String) (r : StoredRecord)
    (hm : ((optsMethods.getD ["POST"]).map jsToUpper).contains (jsToUpper req.method) = true)
    (ha : req.agentId = some agent) (ha2 : agent ≠ "")
    (hk : jsTrim (req.idemHeader.getD "") ≠ "")
    (hk2 : (jsTrim (req.idemHeader.getD "")).length ≤ 200)
    (hh : requestHash req.method (req.baseUrl ++ req.path) req.body = some hash)
    (hr : lookupRecord db agent (jsTrim (req.idemHeader.getD ""))
        req.method (req.baseUrl ++ req.path) = some r)
    (hne : r.request_hash ≠ "") (hdiff : r.request_hash ≠ hash) :
    runRequest optsMethods req db false commitErr handler =
      ⟨false, some ⟨409, conflictBody, false⟩, false, db⟩ := by
  have hd := entry_participating optsMethods req db false agent hm ha ha2 hk hk2
  rw [hh] at hd
  simp only [Bool.false_eq_true, if_false, hr] at hd
  rw [if_pos ⟨hne, hdiff⟩] at hd
  simp [runRequest, hd]

/-- C4 witness: a concrete conflicting retry is answered 409. -/
theorem c4_conflict_409_witness :
    runRequest none ⟨"POST", "", "/x", some "a1", some "k", .null⟩
      [⟨"a1", "k", "POST", "/x", "different", 200, some "null"⟩] false false ⟨200, none⟩ =
      ⟨false, some ⟨409, conflictBody, false⟩, false,
        [⟨"a1", "k", "POST", "/x", "different", 200, some "null"⟩]⟩ :=
  c4_conflict_409 none ⟨"POST", "", "/x", some "a1", some "k", .null⟩
    [⟨"a1", "k", "POST", "/x", "different", 200, some "null"⟩] false ⟨200, none⟩
    "a1" "POST:/x:" ⟨"a1", "k", "POST", "/x", "different", 200, some "null"⟩
    (by decide) rfl (by decide) (by decide) (by decide) rfl (by decide)
    (by decide) (by decide)

/--
C7: a request that misses any participation condition — method not in
the configured (upper-cased) method set, no identified caller (or a
falsy caller id), no idempotency key after trimming, or a key longer
than 200 characters — passes straight through: the handler runs, its
own response is transmitted without a replay header, no conflict is
raised and nothing is stored.
-/
theorem c7_bypass_passthrough (optsMethods : Option (List String)) (req : Request)
    (db : List StoredRecord) (lookupErr commitErr : Bool) (handler : HandlerOutcome)
    (hb : bypassed optsMethods req) :
    runRequest optsMethods req db lookupErr commitErr handler =
      ⟨true, some ⟨handler.status, handlerBody handler, false⟩, false, db⟩ := by
  have hd := entry_passthrough optsMethods req db lookupErr hb
  simp [runRequest, hd]

/-- C7 witness: a GET request with a key and caller is not intercepted. -/
theorem c7_bypass_passthrough_witness :
    runRequest none ⟨"GET", "", "/orders", some "a1", some "abc", .null⟩ [] false false
      ⟨200, some (.str "ok")⟩ =
      ⟨true, some ⟨200, .str "ok", false⟩, false, []⟩ :=
  c7_bypass_passthrough none ⟨"GET", "", "/orders", some "a1", some "abc", .null⟩ []
    false false ⟨200, some (.str "ok")⟩ (Or.inl (by decide))

/--
C10: the `Idempotency-Key` header is trimmed before any use: a header
of only whitespace is treated as absent (plain pass-through), and two
header values with equal trims make the middleware behave identically
(same decision, same response, same store), so they deduplicate
against the same stored record.
-/
theorem c10_key_trimmed (optsMethods : Option (List String)) (req : Request)
    (db : List StoredRecord) (lookupErr commitErr : Bool) (handler : HandlerOutcome)
    (w w1 w2 : Option String)
    (hws : jsTrim (w.getD "") = "")
    (heq : jsTrim (w1.getD "") = jsTrim (w2.getD "")) :
    (runRequest optsMethods { req with idemHeader := w } db lookupErr commitErr handler =
      ⟨true, some ⟨handler.status, handlerBody handler, false⟩, false, db⟩)
    ∧ runRequest optsMethods { req with idemHeader := w1 } db lookupErr commitErr handler =
        runRequest optsMethods { req with idemHeader := w2 } db lookupErr commitErr handler := by
  constructor
  · have hd := entry_passthrough optsMethods { req with idemHeader := w } db lookupErr
      (Or.inr (Or.inr (Or.inr (Or.inl (by simpa using hws)))))
    simp [runRequest, hd]
  · have he : entryDecision optsMethods { req with idemHeader := w1 } db lookupErr =
        entryDecision optsMethods { req with idemHeader := w2 } db lookupErr := by
      simp only [entryDecision]
      rw [heq]
    simp only [runRequest, he]

/-- C10 witness: surrounding spaces in the key are irrelevant. -/
theorem c10_key_trimmed_witness :
    (runRequest none ⟨"POST", "", "/x", some "a1", some "  ", .null⟩ [] false false
        ⟨200, none⟩ = ⟨true, some ⟨200, .undefined, false⟩, false, []⟩)
    ∧ runRequest none ⟨"POST", "", "/x", some "a1", some " k ", .null⟩ [] false false
          ⟨200, none⟩ =
        runRequest none ⟨"POST", "", "/x", some "a1", some "k", .null⟩ [] false false
          ⟨200, none⟩ :=
  c10_key_trimmed none ⟨"POST", "", "/x", some "a1", none, .null⟩ [] false false
    ⟨200, none⟩ (some "  ") (some " k ") (some "k") (by decide) (by decide)

theorem mem_insertIfAbsent (db : List StoredRecord) (r x : StoredRecord) (hx : x ∈ db) :
    x ∈ insertIfAbsent db r := by
  unfold insertIfAbsent
  split
  · exact hx
  · exact List.mem_append_left _ hx

theorem mem_of_insertIfAbsent (db : List StoredRecord) (r x : StoredRecord)
    (hx : x ∈ insertIfAbsent db r) : x ∈ db ∨ x = r := by
  unfold insertIfAbsent at hx
  split at hx
  · exact Or.inl hx
  · rcases List.mem_append.mp hx with h | h
    · exact Or.inl h
    · exact Or.inr (List.mem_singleton.mp h)

theorem insertIfAbsent_eq_of_tuple_mem (db : List StoredRecord) (r : StoredRecord)
    (hex : ∃ y ∈ db, sameTuple y r = true) : insertIfAbsent db r = db := by
  unfold insertIfAbsent
  rw [if_pos]
  obtain ⟨y, hy, ht⟩ := hex
  exact List.any_eq_true.mpr ⟨y, hy, ht⟩

theorem pairwise_insertIfAbsent (db : List StoredRecord) (r : StoredRecord)
    (hu : db.Pairwise (fun a b => sameTuple a b = false)) :
    (insertIfAbsent db r).Pairwise (fun a b => sameTuple a b = false) := by
  unfold insertIfAbsent
  split
  · exact hu
  · rename_i hany
    rw [List.pairwise_append]
    refine ⟨hu, List.pairwise_singleton _ _, ?_⟩
    intro x hx y hy
    rw [List.mem_singleton] at hy
    subst hy
    rw [List.any_eq_true] at hany
    push_neg at hany
    simpa using hany x hx

theorem commit_eq_of_non2xx (db : List StoredRecord)
    (agent key method route hash : String) (status : Nat) (emitted : Option Js)
    (commitErr : Bool) (hst : status < 200 ∨ 300 ≤ status) :
    commitOnFinish db agent key method route hash status emitted commitErr = db := by
  unfold commitOnFinish
  rw [if_pos hst]

theorem commit_db_cases (db : List StoredRecord)
    (agent key method route hash : String) (status : Nat) (emitted : Option Js)
    (commitErr : Bool) :
    commitOnFinish db agent key method route hash status emitted commitErr = db
    ∨ ∃ rb, commitOnFinish db agent key method route hash status emitted commitErr =
          insertIfAbsent db ⟨agent, key, method, route, hash, status, rb⟩
        ∧ 200 ≤ status ∧ status < 300 := by
  unfold commitOnFinish
  split
  · exact Or.inl rfl
  · rename_i hst
    push_neg at hst
    split
    · exact Or.inl rfl
    · split
      · exact Or.inl rfl
      · exact Or.inr ⟨none, rfl, hst.1, by omega⟩
    · split
      · exact Or.inl rfl
      · exact Or.inr ⟨_, rfl, hst.1, by omega⟩

theorem runRequest_db2_cases (optsMethods : Option (List String)) (req : Request)
    (db : List StoredRecord) (lookupErr commitErr : Bool) (handler : HandlerOutcome) :
    (runRequest optsMethods req db lookupErr commitErr handler).db2 = db
    ∨ ∃ agent key route hash rb,
        (runRequest optsMethods req db lookupErr commitErr handler).db2 =
          insertIfAbsent db ⟨agent, key, req.method, route, hash, handler.status, rb⟩
        ∧ 200 ≤ handler.status ∧ handler.status < 300 := by
  cases hd : entryDecision optsMethods req db lookupErr with
  | passthrough => exact Or.inl (by simp [runRequest, hd])
  | errFwd => exact Or.inl (by simp [runRequest, hd])
  | conflict => exact Or.inl (by simp [runRequest, hd])
  | replay r => exact Or.inl (by simp [runRequest, hd])
  | executing agent key route hash =>
    have hdb : (runRequest optsMethods req db lookupErr commitErr handler).db2 =
        commitOnFinish db agent key req.method route hash handler.status
          handler.emitted commitErr := by
      simp [runRequest, hd]
    rcases commit_db_cases db agent key req.method route hash handler.status
        handler.emitted commitErr with h | ⟨rb, h, h1, h2⟩
    · exact Or.inl (hdb.trans h)
    · exact Or.inr ⟨agent, key, route, hash, rb, hdb.trans h, h1, h2⟩

theorem handlerRan_indep (optsMethods : Option (List String)) (req : Request)
    (db : List StoredRecord) (lookupErr commitErr1 commitErr2 : Bool)
    (h1 h2 : HandlerOutcome) :
    (runRequest optsMethods req db lookupErr commitErr1 h1).handlerRan =
      (runRequest optsMethods req db lookupErr commitErr2 h2).handlerRan := by
  cases hd : entryDecision optsMethods req db lookupErr <;> simp [runRequest, hd]

/--
C5: only 2xx outcomes are ever persisted.  If the handler ran and
finished with a status outside [200, 300) the store is unchanged, so a
retry of the same request still executes the handler; and a store
whose records all carry 2xx status codes keeps that property across
any request (a commit only ever inserts the handler's own status,
which is checked to be 2xx first).
-/
theorem c5_non2xx_not_persisted (optsMethods : Option (List String)) (req : Request)
    (db : List StoredRecord) (lookupErr commitErr : Bool)
    (handler handler2 : HandlerOutcome)
    (hran : (runRequest optsMethods req db lookupErr commitErr handler).handlerRan = true)
    (hst : handler.status < 200 ∨ 300 ≤ handler.status)
    (hinv : ∀ r ∈ db, 200 ≤ r.status_code ∧ r.status_code < 300) :
    (runRequest optsMethods req db lookupErr commitErr handler).db2 = db
    ∧ (∀ r ∈ (runRequest optsMethods req db lookupErr commitErr handler2).db2,
        200 ≤ r.status_code ∧ r.status_code < 300)
    ∧ (runRequest optsMethods req db lookupErr commitErr handler2).handlerRan = true := by
  refine ⟨?_, ?_, ?_⟩
  · cases hd : entryDecision optsMethods req db lookupErr with
    | passthrough => simp [runRequest, hd]
    | errFwd => simp [runRequest, hd] at hran
    | conflict => simp [runRequest, hd] at hran
    | replay r => simp [runRequest, hd] at hran
    | executing agent key route hash =>
      simp only [runRequest, hd]
      exact commit_eq_of_non2xx db agent key req.method route hash handler.status
        handler.emitted commitErr hst
  · rcases runRequest_db2_cases optsMethods req db lookupErr commitErr handler2 with
      h | ⟨agent, key, route, hash, rb, h, h1, h2⟩
    · rw [h]
      exact hinv
    · rw [h]
      intro r hr
      rcases mem_of_insertIfAbsent _ _ _ hr with hm | hm
      · exact hinv r hm
      · subst hm
        exact ⟨h1, h2⟩
  · rw [handlerRan_indep optsMethods req db lookupErr commitErr commitErr handler2 handler]
    exact hran

/-- C5 witness: a handler 500 leaves the store empty and a retry re-runs. -/
theorem c5_non2xx_not_persisted_witness :
    (runRequest none ⟨"POST", "", "/x", some "a1", some "k", .null⟩ [] false false
        ⟨500, some (.str "boom")⟩).db2 = []
    ∧ (∀ r ∈ (runRequest none ⟨"POST", "", "/x", some "a1", some "k", .null⟩ [] false false
        ⟨201, some (.str "ok")⟩).db2, 200 ≤ r.status_code ∧ r.status_code < 300)
    ∧ (runRequest none ⟨"POST", "", "/x", some "a1", some "k", .null⟩ [] false false
        ⟨201, some (.str "ok")⟩).handlerRan = true :=
  c5_non2xx_not_persisted none ⟨"POST", "", "/x", some "a1", some "k", .null⟩ [] false false
    ⟨500, some (.str "boom")⟩ ⟨201, some (.str "ok")⟩
    (by simp +decide [runRequest, entryDecision, lookupRecord, tupleIs, handlerBody,
      requestHash, stableStringify, sha256, jsToUpper, jsTrim, isJsSpace])
    (by decide) (by simp)

/--
C6: the store is append-only with at most one record per
(agent_id, idem_key, method, route) tuple.  An insert for a tuple that
already has a record is a no-op leaving the store unchanged (the
`ON CONFLICT DO NOTHING` semantics, raising no error), a store whose
records have pairwise distinct tuples keeps that property across any
request, and no existing record is ever updated or removed by a
request cycle.
-/
theorem c6_append_only_unique (optsMethods : Option (List String)) (req : Request)
    (db : List StoredRecord) (lookupErr commitErr : Bool) (handler : HandlerOutcome)
    (r : StoredRecord)
    (hu : db.Pairwise (fun a b => sameTuple a b = false))
    (hex : ∃ y ∈ db, sameTuple y r = true) :
    insertIfAbsent db r = db
    ∧ (runRequest optsMethods req db lookupErr commitErr handler).db2.Pairwise
        (fun a b => sameTuple a b = false)
    ∧ ∀ x ∈ db, x ∈ (runRequest optsMethods req db lookupErr commitErr handler).db2 := by
  refine ⟨insertIfAbsent_eq_of_tuple_mem db r hex, ?_, ?_⟩
  · rcases runRequest_db2_cases optsMethods req db lookupErr commitErr handler with
      h | ⟨agent, key, route, hash, rb, h, _, _⟩
    · rw [h]
      exact hu
    · rw [h]
      exact pairwise_insertIfAbsent _ _ hu
  · rcases runRequest_db2_cases optsMethods req db lookupErr commitErr handler with
      h | ⟨agent, key, route, hash, rb, h, _, _⟩
    · rw [h]
      intro x hx
      exact hx
    · rw [h]
      intro x hx
      exact mem_insertIfAbsent _ _ _ hx

/-- C6 witness: a duplicate-tuple insert is a no-op on a concrete store. -/
theorem c6_append_only_unique_witness :
    insertIfAbsent [⟨"a1", "k", "POST", "/x", "h1", 200, some "null"⟩]
        ⟨"a1", "k", "POST", "/x", "h2", 201, none⟩ =
      [⟨"a1", "k", "POST", "/x", "h1", 200, some "null"⟩]
    ∧ (runRequest none ⟨"POST", "", "/x", some "a1", some "k", .null⟩
        [⟨"a1", "k", "POST", "/x", "h1", 200, some "null"⟩] false false
        ⟨200, none⟩).db2.Pairwise (fun a b => sameTuple a b = false)
    ∧ ∀ x ∈ [⟨"a1", "k", "POST", "/x", "h1", 200, some "null"⟩],
        x ∈ (runRequest none ⟨"POST", "", "/x", some "a1", some "k", .null⟩
          [⟨"a1", "k", "POST", "/x", "h1", 200, some "null"⟩] false false
          ⟨200, none⟩).db2 :=
  c6_append_only_unique none ⟨"POST", "", "/x", some "a1", some "k", .null⟩
    [⟨"a1", "k", "POST", "/x", "h1", 200, some "null"⟩] false false ⟨200, none⟩
    ⟨"a1", "k", "POST", "/x", "h2", 201, none⟩
    (by simp)
    ⟨⟨"a1", "k", "POST", "/x", "h1", 200, some "null"⟩, by simp, by decide⟩

theorem lookupField_mem {fs : List (String × Js)} {k : String} {v : Js}
    (h : lookupField fs k = some v) : (k, v) ∈ fs := by
  induction fs with
  | nil => simp [lookupField] at h
  | cons p rest ih =>
    obtain ⟨k1, w⟩ := p
    simp only [lookupField] at h
    split at h
    · rename_i he
      cases h
      subst he
      exact List.mem_cons_self _ _
    · exact List.mem_cons_of_mem _ (ih h)

theorem lookupField_of_mem {fs : List (String × Js)} {k : String} {v : Js}
    (hnd : (fs.map Prod.fst).Nodup) (hm : (k, v) ∈ fs) : lookupField fs k = some v := by
  induction fs with
  | nil => simp at hm
  | cons p rest ih =>
    obtain ⟨k1, w⟩ := p
    simp only [List.map_cons, List.nodup_cons] at hnd
    rcases List.mem_cons.mp hm with h1 | h1
    · rw [Prod.mk.injEq] at h1
      obtain ⟨hk1, hw⟩ := h1
      subst hk1
      subst hw
      simp [lookupField]
    · have hk : k1 ≠ k := by
        intro he
        subst he
        exact hnd.1 (List.mem_map.mpr ⟨(k1, v), h1, rfl⟩)
      simp only [lookupField, if_neg hk]
      exact ih hnd.2 h1

theorem lookupField_none_iff {fs : List (String × Js)} {k : String} :
    lookupField fs k = none ↔ ∀ v, (k, v) ∉ fs := by
  induction fs with
  | nil => simp [lookupField]
  | cons p rest ih =>
    obtain ⟨k1, w⟩ := p
    simp only [lookupField]
    split
    · rename_i he
      subst he
      constructor
      · intro h
        cases h
      · intro h
        exact absurd (List.mem_cons_self (k1, w) rest) (h w)
    · rename_i he
      rw [ih]
      constructor
      · intro h v hm
        rcases List.mem_cons.mp hm with h1 | h1
        · rw [Prod.mk.injEq] at h1
          exact he h1.1.symm
        · exact h v h1
      · intro h v hm
        exact h v (List.mem_cons_of_mem _ hm)

theorem lookupField_perm {fs fs2 : List (String × Js)} (hp : fs.Perm fs2)
    (hnd : (fs.map Prod.fst).Nodup) (k : String) :
    lookupField fs k = lookupField fs2 k := by
  have hnd2 : (fs2.map Prod.fst).Nodup := ((hp.map Prod.fst).nodup_iff).mp hnd
  cases h : lookupField fs k with
  | some v => exact (lookupField_of_mem hnd2 (hp.mem_iff.mp (lookupField_mem h))).symm
  | none =>
    cases h2 : lookupField fs2 k with
    | none => rfl
    | some v =>
      exfalso
      rw [lookupField_none_iff] at h
      exact h v (hp.mem_iff.mpr (lookupField_mem h2))

theorem serializeFields_nil (repl : Option (List String)) (fs : List (String × Js)) :
    serializeFields repl fs [] = .ok [] := by
  simp [serializeFields]

theorem serializeFields_cons (repl : Option (List String)) (fs : List (String × Js))
    (k : String) (ks : List String) :
    serializeFields repl fs (k :: ks) =
      match lookupField fs k with
      | none => serializeFields repl fs ks
      | some v =>
        match serialize repl v with
        | .thrown => .error ()
        | .undefined => serializeFields repl fs ks
        | .ok s =>
          match serializeFields repl fs ks with
          | .error e => .error e
          | .ok parts => .ok ((quoteJSON k ++ ":" ++ s) :: parts) := by
  rw [serializeFields]
  split <;> rename_i h <;> rw [h]

theorem serializeFields_congr {fs fs2 : List (String × Js)}
    (hl : ∀ k, lookupField fs k = lookupField fs2 k) (repl : Option (List String)) :
    ∀ ks, serializeFields repl fs ks = serializeFields repl fs2 ks := by
  intro ks
  induction ks with
  | nil => rw [serializeFields_nil, serializeFields_nil]
  | cons k ks ih => rw [serializeFields_cons, serializeFields_cons, hl k, ih]

theorem serialize_obj_perm {fs fs2 : List (String × Js)} (hp : fs.Perm fs2)
    (hnd : (fs.map Prod.fst).Nodup) (K : List String) :
    serialize (some K) (.obj fs) = serialize (some K) (.obj fs2) := by
  simp only [serialize]
  rw [serializeFields_congr (lookupField_perm hp hnd) (some K) K]

theorem sortKeys_perm {l l2 : List String} (hp : l.Perm l2) : sortKeys l = sortKeys l2 :=
  List.eq_of_perm_of_sorted
    ((List.perm_insertionSort _ l).trans (hp.trans (List.perm_insertionSort _ l2).symm))
    (List.sorted_insertionSort _ l)
    (List.sorted_insertionSort _ l2)

theorem stableStringify_obj_perm {fs fs2 : List (String × Js)} (hp : fs.Perm fs2)
    (hnd : (fs.map Prod.fst).Nodup) :
    stableStringify (.obj fs) = stableStringify (.obj fs2) := by
  have hK : sortKeys (objectKeys (.obj fs)) = sortKeys (objectKeys (.obj fs2)) := by
    simp only [objectKeys]
    exact sortKeys_perm (hp.map Prod.fst)
  simp only [stableStringify]
  rw [hK, serialize_obj_perm hp hnd]

/--
C8: the fingerprint is deterministic and insensitive to irrelevant
structural variation.  Reordering the keys of an object body (a
permutation of its field list; JavaScript object keys are distinct)
leaves the fingerprint unchanged, string bodies are hashed as-is, and
absent (`null`/`undefined`) and empty-string bodies hash identically.
-/
theorem c8_fingerprint_stable (m r : String) (fs fs2 : List (String × Js))
    (hp : fs.Perm fs2) (hnd : (fs.map Prod.fst).Nodup) :
    requestHash m r (.obj fs) = requestHash m r (.obj fs2)
    ∧ (∀ s, stableStringify (.str s) = some s)
    ∧ requestHash m r .null = requestHash m r (.str "")
    ∧ requestHash m r .undefined = requestHash m r (.str "") := by
  refine ⟨?_, fun s => by simp [stableStringify], by simp [requestHash, stableStringify],
    by simp [requestHash, stableStringify]⟩
  unfold requestHash
  rw [stableStringify_obj_perm hp hnd]

/-- C8 witness: a concrete reordered object body hashes identically. -/
theorem c8_fingerprint_stable_witness :
    requestHash "POST" "/x" (.obj [("b", .num 2), ("a", .num 1)]) =
      requestHash "POST" "/x" (.obj [("a", .num 1), ("b", .num 2)])
    ∧ (∀ s, stableStringify (.str s) = some s)
    ∧ requestHash "POST" "/x" .null = requestHash "POST" "/x" (.str "")
    ∧ requestHash "POST" "/x" .undefined = requestHash "POST" "/x" (.str "") :=
  c8_fingerprint_stable "POST" "/x" [("b", .num 2), ("a", .num 1)]
    [("a", .num 1), ("b", .num 2)] (List.Perm.swap _ _ _) (by simp)

mutual

/-- Serializability: the value contains no unserializable part. -/
def noUnser : Js → Bool
  | .unser => false
  | .arr xs => noUnserElems xs
  | .obj fs => noUnserFields fs
  | _ => true

/-- Serializability of every element of an array. -/
def noUnserElems : List Js → Bool
  | [] => true
  | x :: r => noUnser x && noUnserElems r

/-- Serializability of every field value of an object. -/
def noUnserFields : List (String × Js) → Bool
  | [] => true
  | p :: r => noUnser p.2 && noUnserFields r

end

theorem noUnser_of_mem_fields {fs : List (String × Js)}
    (h : noUnserFields fs = true) {k : String} {v : Js} (hm : (k, v) ∈ fs) :
    noUnser v = true := by
  induction fs with
  | nil => simp at hm
  | cons p r ih =>
    simp only [noUnserFields, Bool.and_eq_true] at h
    rcases List.mem_cons.mp hm with h1 | h1
    · rw [← h1] at h
      exact h.1
    · exact ih h.2 h1

theorem serialize_total (repl : Option (List String)) :
    ∀ n : Nat,
      (∀ v : Js, sizeOf v ≤ n → noUnser v = true → serialize repl v ≠ .thrown)
      ∧ (∀ xs : List Js, sizeOf xs ≤ n → noUnserElems xs = true →
          ∀ e, serializeElems repl xs ≠ .error e)
      ∧ (∀ fs : List (String × Js), sizeOf fs ≤ n → noUnserFields fs = true →
          ∀ ks e, serializeFields repl fs ks ≠ .error e) := by
  intro n
  induction n using Nat.strong_induction_on with
  | _ n ih =>
    refine ⟨?_, ?_, ?_⟩
    · intro v hv hnu
      match v with
      | .null => simp [serialize]
      | .undefined => simp [serialize]
      | .bool b => simp [serialize]
      | .num m => simp [serialize]
      | .str s => simp [serialize]
      | .unser => simp [noUnser] at hnu
      | .arr xs =>
        have hsz : sizeOf xs < n := by
          simp only [Js.arr.sizeOf_spec] at hv
          omega
        have hnx : noUnserElems xs = true := by simpa [noUnser] using hnu
        cases he : serializeElems repl xs with
        | error e => exact absurd he ((ih (sizeOf xs) hsz).2.1 xs le_rfl hnx e)
        | ok parts => simp [serialize, he]
      | .obj fs =>
        have hsz : sizeOf fs < n := by
          simp only [Js.obj.sizeOf_spec] at hv
          omega
        have hnf : noUnserFields fs = true := by simpa [noUnser] using hnu
        cases repl with
        | none =>
          cases he : serializeFields none fs (fs.map Prod.fst) with
          | error e =>
            exact absurd he ((ih (sizeOf fs) hsz).2.2 fs le_rfl hnf _ e)
          | ok parts => simp [serialize, he]
        | some K =>
          cases he : serializeFields (some K) fs K with
          | error e =>
            exact absurd he ((ih (sizeOf fs) hsz).2.2 fs le_rfl hnf _ e)
          | ok parts => simp [serialize, he]
    · intro xs hxs hnu e
      match xs with
      | [] => simp [serializeElems]
      | x :: r =>
        rw [noUnserElems, Bool.and_eq_true] at hnu
        have hszx : sizeOf x < n := by
          simp only [List.cons.sizeOf_spec] at hxs
          omega
        have hszr : sizeOf r < n := by
          simp only [List.cons.sizeOf_spec] at hxs
          omega
        cases hs : serialize repl x with
        | thrown => exact absurd hs ((ih (sizeOf x) hszx).1 x le_rfl hnu.1)
        | undefined =>
          cases he : serializeElems repl r with
          | error e2 => exact absurd he ((ih (sizeOf r) hszr).2.1 r le_rfl hnu.2 e2)
          | ok parts => simp [serializeElems, hs, he]
        | ok s =>
          cases he : serializeElems repl r with
          | error e2 => exact absurd he ((ih (sizeOf r) hszr).2.1 r le_rfl hnu.2 e2)
          | ok parts => simp [serializeElems, hs, he]
    · intro fs hfs hnu ks e
      induction ks with
      | nil => simp [serializeFields_nil]
      | cons k ks ihk =>
        rw [serializeFields_cons]
        split
        · exact ihk
        · rename_i v hlf
          have hszv : sizeOf v < n :=
            Nat.lt_of_lt_of_le (sizeOf_lookupField hlf) hfs
          have hnv : noUnser v = true := noUnser_of_mem_fields hnu (lookupField_mem hlf)
          split
          · rename_i hs
            exact absurd hs ((ih (sizeOf v) hszv).1 v le_rfl hnv)
          · exact ihk
          · rename_i s
            split
            · rename_i e2 he
              cases e
              cases e2
              exact absurd he ihk
            · simp

theorem stableStringify_total {b : Js} (h : noUnser b = true) :
    (stableStringify b).isSome = true := by
  match b with
  | .null => simp [stableStringify]
  | .undefined => simp [stableStringify]
  | .str s => simp [stableStringify]
  | .unser => simp [noUnser] at h
  | .bool c =>
    cases hs : serialize (some (sortKeys (objectKeys (.bool c)))) (.bool c) with
    | thrown =>
      exact absurd hs ((serialize_total _ (sizeOf (Js.bool c))).1 _ le_rfl h)
    | undefined => simp [stableStringify, hs]
    | ok s => simp [stableStringify, hs]
  | .num m =>
    cases hs : serialize (some (sortKeys (objectKeys (.num m)))) (.num m) with
    | thrown =>
      exact absurd hs ((serialize_total _ (sizeOf (Js.num m))).1 _ le_rfl h)
    | undefined => simp [stableStringify, hs]
    | ok s => simp [stableStringify, hs]
  | .arr xs =>
    cases hs : serialize (some (sortKeys (objectKeys (.arr xs)))) (.arr xs) with
    | thrown =>
      exact absurd hs ((serialize_total _ (sizeOf (Js.arr xs))).1 _ le_rfl h)
    | undefined => simp [stableStringify, hs]
    | ok s => simp [stableStringify, hs]
  | .obj fs =>
    cases hs : serialize (some (sortKeys (objectKeys (.obj fs)))) (.obj fs) with
    | thrown =>
      exact absurd hs ((serialize_total _ (sizeOf (Js.obj fs))).1 _ le_rfl h)
    | undefined => simp [stableStringify, hs]
    | ok s => simp [stableStringify, hs]

/--
C9 (amended): the fingerprinter is total on serializable bodies, but
not on unserializable ones: there `JSON.stringify` throws, no hash is
produced, and the middleware's surrounding try/catch forwards the
error to the error chain via `next(err)` — the handler does not run
and the request is not completed normally, instead of the claimed
log-and-degrade hashing.
-/
theorem c9_fingerprint_totality (optsMethods : Option (List String)) (req : Request)
    (db : List StoredRecord) (lookupErr commitErr : Bool) (handler : HandlerOutcome)
    (agent : String)
    (hm : ((optsMethods.getD ["POST"]).map jsToUpper).contains (jsToUpper req.method) = true)
    (ha : req.agentId = some agent) (ha2 : agent ≠ "")
    (hk : jsTrim (req.idemHeader.getD "") ≠ "")
    (hk2 : (jsTrim (req.idemHeader.getD "")).length ≤ 200)
    (hthrow : stableStringify req.body = none) :
    (∀ b : Js, noUnser b = true → (stableStringify b).isSome = true)
    ∧ runRequest optsMethods req db lookupErr commitErr handler = ⟨false, none, true, db⟩ := by
  refine ⟨fun b hb => stableStringify_total hb, ?_⟩
  have hd := entry_participating optsMethods req db lookupErr agent hm ha ha2 hk hk2
  rw [show requestHash req.method (req.baseUrl ++ req.path) req.body = none from by
    simp [requestHash, hthrow]] at hd
  simp [runRequest, hd]

/-- C9 witness: the amended theorem at a concrete unserializable body. -/
theorem c9_fingerprint_totality_witness :
    (∀ b : Js, noUnser b = true → (stableStringify b).isSome = true)
    ∧ runRequest none ⟨"POST", "", "/x", some "a1", some "k", .unser⟩ [] false false
        ⟨200, none⟩ = ⟨false, none, true, []⟩ :=
  c9_fingerprint_totality none ⟨"POST", "", "/x", some "a1", some "k", .unser⟩ [] false false
    ⟨200, none⟩ "a1" (by decide) rfl (by decide) (by decide) (by decide)
    (by simp [stableStringify, sortKeys, objectKeys, serialize])

end Idem
